import Mathlib

/-!
Verification of the enfugue launcher script (`streamlit_app.py`).

The development shallowly embeds the update-orchestration core of the script:
the version comparator `compare_versions`, the prompt/decision function
`compare_prompt_update`, the portable-archive fetch `download_portable`, the
update-check block (script lines 244-265), the `--update`/`--no-update` flag
handling (lines 204-207) and the launch block (lines 278-284).

Python runtime behaviour is modelled explicitly: values that may be `None`
are `Option`s, and statements that can raise are functions into `PyResult`,
where `PyErr` records which Python exception is raised.  Python's `int`
constructor is modelled for ASCII input (whitespace stripping, an optional
sign, digits with underscores between digits).
-/

/-- The Python exceptions the embedded code can raise. -/
inductive PyErr where
  | valueError
  | attributeError
  | indexError
deriving DecidableEq, Repr

/-- Result of running a piece of Python code: a value or a raised exception. -/
inductive PyResult (α : Type) where
  | ok : α → PyResult α
  | error : PyErr → PyResult α
deriving DecidableEq, Repr

/-- The ASCII whitespace characters stripped by Python's `int(str)`. -/
def isPySpace (c : Char) : Bool :=
  decide (c.toNat = 32 ∨ c.toNat = 9 ∨ c.toNat = 10 ∨ c.toNat = 13 ∨ c.toNat = 11 ∨ c.toNat = 12)

/-- ASCII decimal digit test, as used by Python's `int(str)` on ASCII input. -/
def isDigitChar (c : Char) : Bool :=
  decide (48 ≤ c.toNat ∧ c.toNat ≤ 57)

/-- Strip leading and trailing whitespace, as Python's `int(str)` does. -/
def pyStripChars (l : List Char) : List Char :=
  ((l.dropWhile isPySpace).reverse.dropWhile isPySpace).reverse

/-- Digit run of Python's `int(str)` after the first digit: digits with single
underscores allowed between digits, accumulating the decimal value. -/
def pyDigitsCore (acc : Nat) : List Char → Option Nat
  | [] => some acc
  | c :: rest =>
    if c = '_' then
      match rest with
      | [] => none
      | c2 :: rest2 =>
        if isDigitChar c2 then pyDigitsCore (10 * acc + (c2.toNat - 48)) rest2 else none
    else
      if isDigitChar c then pyDigitsCore (10 * acc + (c.toNat - 48)) rest else none

/-- Digit run of Python's `int(str)`: a nonempty digit sequence that must start
with a digit (no leading underscore). -/
def pyDigits : List Char → Option Nat
  | [] => none
  | c :: rest => if isDigitChar c then pyDigitsCore (c.toNat - 48) rest else none

/-- Python's `int(str)` on a stripped character list: optional single sign
followed by a digit run.  `none` models a raised `ValueError`. -/
def pyIntOfChars : List Char → Option Int
  | [] => none
  | c :: rest =>
    if c = '+' then (pyDigits rest).map (fun n => (n : Int))
    else if c = '-' then (pyDigits rest).map (fun n => -(n : Int))
    else (pyDigits (c :: rest)).map (fun n => (n : Int))

/-- Python's `int(str)` (ASCII model): strip whitespace, then sign and digits. -/
def pyInt (s : String) : Option Int :=
  pyIntOfChars (pyStripChars s.data)

/-- `list(map(int, parts))`: convert every part, raising `ValueError` at the
first part `int` rejects (script lines 130-131). -/
def mapPyInt : List String → PyResult (List Int)
  | [] => .ok []
  | s :: rest =>
    match pyInt s with
    | none => .error .valueError
    | some n =>
      match mapPyInt rest with
      | .error e => .error e
      | .ok l => .ok (n :: l)

/-- Helper for `pySplitDot`: accumulate the current component (reversed). -/
def splitDotAux : List Char → List Char → List String
  | [], acc => [String.mk acc.reverse]
  | c :: rest, acc =>
    if c = '.' then String.mk acc.reverse :: splitDotAux rest []
    else splitDotAux rest (c :: acc)

/-- Python's `s.split(".")`: always nonempty, `"".split(".") == [""]`. -/
def pySplitDot (s : String) : List String :=
  splitDotAux s.data []

/-- Iterations of the `compare_versions` loop after `ver1` is exhausted: each
remaining component of `ver2` is compared against the padding value `0`. -/
def cmpZeros : List Int → Int
  | [] => 0
  | b :: bs => if 0 > b then 1 else if 0 < b then -1 else cmpZeros bs

/-- The comparison loop of `compare_versions` (script lines 132-139): walk the
two integer lists left to right, reading a missing component as `0`, and
return `1`/`-1` at the first difference, else `0`. -/
def cmpPadded : List Int → List Int → Int
  | [], bs => cmpZeros bs
  | a :: as, [] => if a > 0 then 1 else if a < 0 then -1 else cmpPadded as []
  | a :: as, b :: bs => if a > b then 1 else if a < b then -1 else cmpPadded as bs

/-- `compare_versions(v1, v2)` (script lines 126-139).  Equal arguments (both
`None`, or equal strings) return `0` immediately; otherwise each argument is
split on `"."` and converted with `int`.  A `None` argument raises
`AttributeError` (`None.split`), an unparsable component raises `ValueError`,
in the evaluation order of the script (`ver1` before `ver2`). -/
def compare_versions (v1 v2 : Option String) : PyResult Int :=
  if v1 = v2 then .ok 0
  else
    match v1 with
    | none => .error .attributeError
    | some s1 =>
      match mapPyInt (pySplitDot s1) with
      | .error e => .error e
      | .ok ver1 =>
        match v2 with
        | none => .error .attributeError
        | some s2 =>
          match mapPyInt (pySplitDot s2) with
          | .error e => .error e
          | .ok ver2 => .ok (cmpPadded ver1 ver2)

/-- Python's `str.lower()` (ASCII model). -/
def pyLower (s : String) : String :=
  String.mk (s.data.map Char.toLower)

/-- `compare_prompt_update(v1, v2, install_update)` (script lines 141-150).
The user's reply to `input()` is passed in as `answer`; the returned pair is
(the function's return value: `True`/`False`/implicit `None`, whether the
prompt was printed).  `answer[0]` on an empty reply raises `IndexError`. -/
def compare_prompt_update (v1 v2 : Option String) (install_update : Bool) (answer : String) :
    PyResult (Option Bool × Bool) :=
  match compare_versions v1 v2 with
  | .error e => .error e
  | .ok compare =>
    if compare < 0 then
      if install_update then .ok (some true, false)
      else
        match (pyLower answer).data with
        | [] => .error .indexError
        | c :: _ => .ok (some (c == 'y' || c == 't' || c == '1'), true)
    else .ok (none, false)

/-- A well-formed version component: a nonempty string of ASCII digits. -/
def validComponent (t : String) : Bool :=
  !t.data.isEmpty && t.data.all isDigitChar

/-- A valid dotted-integer version string: every dot-separated component is a
nonempty digit string. -/
def ValidVersion (s : String) : Bool :=
  (pySplitDot s).all validComponent

/-- Write one file: the effect of `open(p, "wb")` + write, or of extracting
one archive member to path `p`.  The filesystem is a map from paths to file
contents. -/
def fsWrite (fs : String → Option String) (p c : String) : String → Option String :=
  fun q => if q = p then some c else fs q

/-- `os.remove(p)` (script line 172). -/
def fsRemove (fs : String → Option String) (p : String) : String → Option String :=
  fun q => if q = p then none else fs q

/-- `tar.extractall()` (script line 170): extract every archive member, in
order, directly into the working directory — there is no staging directory. -/
def extract_all (fs : String → Option String) (members : List (String × String)) :
    String → Option String :=
  members.foldl (fun f m => fsWrite f m.1 m.2) fs

/-- `tar.extractall()` interrupted after the first `k` members. -/
def extract_upto (fs : String → Option String) (members : List (String × String)) (k : Nat) :
    String → Option String :=
  extract_all fs (members.take k)

/-- The filesystem effect of a successful `download_portable()` (script lines
152-173): download the archive to `filename` in the working directory,
extract all members in place, then remove the archive. -/
def download_portable_run (fs : String → Option String) (filename archive : String)
    (members : List (String × String)) : String → Option String :=
  fsRemove (extract_all (fsWrite fs filename archive) members) filename

/-- The filesystem state when `download_portable()` fails midway through
extraction, after `k` members have been extracted: the already-extracted
members stay in place (nothing is rolled back). -/
def download_portable_midfail (fs : String → Option String) (filename archive : String)
    (members : List (String × String)) (k : Nat) : String → Option String :=
  extract_upto (fsWrite fs filename archive) members k

/-- List-prefix test used to implement Python's substring operator. -/
def charsBegin : List Char → List Char → Bool
  | [], _ => true
  | _ :: _, [] => false
  | a :: as, b :: bs => (a == b) && charsBegin as bs

/-- Python's `needle in hay` on strings (substring containment). -/
def pyContains (needle hay : String) : Bool :=
  hay.data.tails.any (fun t => charsBegin needle.data t)

/-- The environment a run of the script observes: which executables resolve
(`shutil.which` results), and the outputs of the external processes and of
`input()`.  `none` models a Python `None`. -/
structure RunEnv where
  enfugue : Option String
  enfugue_server : Option String
  python : Option String
  pip_freeze : List String
  pip_dry_run : List String
  release_json : String
  answer : String
deriving DecidableEq, Repr

/-- The observable outcome of the update-check block (script lines 244-265):
the four version variables initialised at lines 236-239, whether
`compare_prompt_update` was invoked at all, whether the prompt was shown, and
whether `download_portable()` ran. -/
structure UpdateCheckResult where
  installed_pip : Option (List String)
  available_pip : Option (List String)
  installed_portable : Option String
  available_portable : Option String
  checkInvoked : Bool
  prompted : Bool
  downloaded : Bool
deriving DecidableEq, Repr

/-- Python truthiness of `enfugue_installed_pip_version`: `None` and the empty
list are falsy, a nonempty list is truthy. -/
def truthyStrList : Option (List String) → Bool
  | none => false
  | some l => !l.isEmpty

/-- `[line.split("==")[-1] for line in pip_freeze_lines if "enfugue" in line]`
(script line 249). -/
def pip_installed_lines (lines : List String) : List String :=
  (lines.filter (fun line => pyContains "enfugue" line)).map
    (fun line => (line.splitOn "==").getLastD "")

/-- The two comprehensions of script lines 253-254 applied to the dry-run
stderr lines. -/
def pip_available_lines (lines : List String) : List String :=
  ((lines.filter (fun line => pyContains "enfugue" line)).map
      (fun line => (line.splitOn " ").getLastD "")).map
    (fun version => (version.splitOn "==").getLastD "")

/-- The tag extraction of script line 258.  As written in the source the line
is a Python syntax error (`split("tag_name": "")`); modelled here as the
evidently intended `split('"tag_name": "')[1].split(",")[0].replace('"', "")`,
where a missing separator makes the `[1]` index raise `IndexError`. -/
def parse_tag (s : String) : PyResult String :=
  match (s.splitOn "\"tag_name\": \"").get? 1 with
  | none => .error .indexError
  | some rest => .ok (((rest.splitOn ",").headD "").replace "\"" "")

/-- The update-check block, script lines 244-265, as a function of the
environment and of the `install_update` override variable.  Each inner block
runs only under its guard from the source (`python and install_update is
None`, `enfugue and enfugue_installed_pip_version and install_update is
None`, `enfugue_server and install_update is None`); the portable check calls
`compare_prompt_update(enfugue_installed_portable_version, ...)` with a local
version that is never populated, i.e. `None`, and without passing the
override (the function's `install_update` parameter keeps its default
`False`). -/
def update_check (env : RunEnv) (install_update : Option Bool) : PyResult UpdateCheckResult :=
  if env.enfugue.isSome || env.enfugue_server.isSome then
    let installed_pip : Option (List String) :=
      if env.python.isSome && install_update.isNone then
        some (pip_installed_lines env.pip_freeze)
      else none
    let available_pip : Option (List String) :=
      if env.enfugue.isSome && truthyStrList installed_pip && install_update.isNone then
        some (pip_available_lines env.pip_dry_run)
      else none
    if env.enfugue_server.isSome && install_update.isNone then
      match parse_tag env.release_json with
      | .error e => .error e
      | .ok tag =>
        match compare_prompt_update none (some tag) false env.answer with
        | .error e => .error e
        | .ok (ret, prompted) =>
          if ret = some true then
            .ok ⟨installed_pip, available_pip, some tag, some tag, true, prompted, true⟩
          else
            .ok ⟨installed_pip, available_pip, none, some tag, true, prompted, false⟩
    else
      .ok ⟨installed_pip, available_pip, none, none, false, false, false⟩
  else
    .ok ⟨none, none, none, none, false, false, false⟩

/-- Script lines 204-207: derive `install_update` from the parsed flags.  Both
`--update` and `--no-update` share `dest="update"`, so `args.update` defaults
to `False` and the attribute `args.no_update` never exists: the `elif
args.no_update` branch raises `AttributeError` whenever `args.update` is
falsy. -/
def install_update_of_flags (update_flag : Bool) : PyResult (Option Bool) :=
  if update_flag then .ok (some true) else .error .attributeError

/-- What the launch block starts, if anything. -/
inductive LaunchAction where
  | launchPackage : List String → LaunchAction
  | launchPortable : List String → LaunchAction
  | noLaunch : LaunchAction
deriving DecidableEq, Repr

/-- The launch block, script lines 278-284, as a function of the two resolved
entry points: the action taken, the lines printed, and the script's exit
code.  The script never calls `sys.exit` and ignores the child's return code,
so it exits `0` on every path, including the not-found path. -/
def launch_block (enfugue enfugue_server : Option String) : LaunchAction × List String × Int :=
  match enfugue with
  | some e => (.launchPackage [e, "run"], [], 0)
  | none =>
    match enfugue_server with
    | some s => (.launchPortable [s], [], 0)
    | none => (.noLaunch, ["Enfugue not found."], 0)

/-- One step of the comparison loop, phrased for reuse: the step result is
nonpositive exactly when the current components are strictly ordered, or
equal with a nonpositive continuation. -/
theorem ite_cmp_le (x y r : Int) :
    ((if x > y then (1 : Int) else if x < y then -1 else r) ≤ 0) ↔
      (x < y ∨ (x = y ∧ r ≤ 0)) := by
  split_ifs <;> omega

/-- The loop returns `0` when both lists are equal. -/
theorem cmpPadded_refl : ∀ l : List Int, cmpPadded l l = 0 := by
  intro l
  induction l with
  | nil => rfl
  | cons x xs ih => simp [cmpPadded, ih]

/-- Comparing zeros against `l` is the negation of comparing `l` against an
exhausted second list. -/
theorem cmpZeros_eq_neg : ∀ l : List Int, cmpZeros l = -(cmpPadded l []) := by
  intro l
  induction l with
  | nil => rfl
  | cons y ys ih =>
    simp only [cmpZeros, cmpPadded]
    rw [ih]
    split_ifs <;> omega

/-- The comparison loop is antisymmetric: swapping the arguments negates the
result. -/
theorem cmpPadded_neg : ∀ a b : List Int, cmpPadded a b = -(cmpPadded b a) := by
  intro a
  induction a with
  | nil =>
    intro b
    show cmpZeros b = -(cmpPadded b [])
    exact cmpZeros_eq_neg b
  | cons x xs ih =>
    intro b
    cases b with
    | nil =>
      show cmpPadded (x :: xs) [] = -(cmpZeros (x :: xs))
      rw [cmpZeros_eq_neg]
      omega
    | cons y ys =>
      simp only [cmpPadded]
      rw [ih ys]
      split_ifs <;> omega

/-- Transitivity of the nonpositive cone of the loop, by strong induction on
the total length of the three lists. -/
theorem cmpPadded_trans_aux : ∀ n : Nat, ∀ a b c : List Int,
    a.length + b.length + c.length ≤ n →
    cmpPadded a b ≤ 0 → cmpPadded b c ≤ 0 → cmpPadded a c ≤ 0 := by
  intro n
  induction n with
  | zero =>
    intro a b c hlen h1 h2
    have ha : a = [] := by cases a <;> simp_all
    have hc : c = [] := by cases c <;> simp_all
    subst ha; subst hc
    exact le_refl 0
  | succ n ih =>
    intro a b c hlen h1 h2
    cases a with
    | nil =>
      cases b with
      | nil => exact h2
      | cons y ys =>
        cases c with
        | nil => exact le_refl 0
        | cons z zs =>
          simp only [cmpPadded, cmpZeros] at h1 h2 ⊢
          rw [ite_cmp_le] at h1 h2 ⊢
          rcases h1 with h1 | ⟨h1, h1r⟩ <;> rcases h2 with h2 | ⟨h2, h2r⟩
          · left; omega
          · left; omega
          · left; omega
          · right
            refine ⟨by omega, ?_⟩
            exact ih [] ys zs (by simp at hlen ⊢; omega) h1r h2r
    | cons x xs =>
      cases b with
      | nil =>
        cases c with
        | nil => exact h1
        | cons z zs =>
          simp only [cmpPadded, cmpZeros] at h1 h2 ⊢
          rw [ite_cmp_le] at h1 h2 ⊢
          rcases h1 with h1 | ⟨h1, h1r⟩ <;> rcases h2 with h2 | ⟨h2, h2r⟩
          · left; omega
          · left; omega
          · left; omega
          · right
            refine ⟨by omega, ?_⟩
            exact ih xs [] zs (by simp at hlen ⊢; omega) h1r h2r
      | cons y ys =>
        cases c with
        | nil =>
          simp only [cmpPadded] at h1 h2 ⊢
          rw [ite_cmp_le] at h1 h2 ⊢
          rcases h1 with h1 | ⟨h1, h1r⟩ <;> rcases h2 with h2 | ⟨h2, h2r⟩
          · left; omega
          · left; omega
          · left; omega
          · right
            refine ⟨by omega, ?_⟩
            exact ih xs ys [] (by simp at hlen ⊢; omega) h1r h2r
        | cons z zs =>
          simp only [cmpPadded] at h1 h2 ⊢
          rw [ite_cmp_le] at h1 h2 ⊢
          rcases h1 with h1 | ⟨h1, h1r⟩ <;> rcases h2 with h2 | ⟨h2, h2r⟩
          · left; omega
          · left; omega
          · left; omega
          · right
            refine ⟨by omega, ?_⟩
            exact ih xs ys zs (by simp at hlen ⊢; omega) h1r h2r

/-- Transitivity of the comparison loop. -/
theorem cmpPadded_trans (a b c : List Int)
    (h1 : cmpPadded a b ≤ 0) (h2 : cmpPadded b c ≤ 0) : cmpPadded a c ≤ 0 :=
  cmpPadded_trans_aux (a.length + b.length + c.length) a b c le_rfl h1 h2

/-- Appending one `0` to the zero-padding tail changes nothing. -/
theorem cmpZeros_append_zero : ∀ b : List Int, cmpZeros (b ++ [0]) = cmpZeros b := by
  intro b
  induction b with
  | nil => simp [cmpZeros]
  | cons y ys ih => simp only [List.cons_append, cmpZeros, List.append_eq]; rw [ih]

/-- Appending one `0` to the second list does not change the loop's result. -/
theorem cmpPadded_append_zero_right : ∀ a b : List Int,
    cmpPadded a (b ++ [0]) = cmpPadded a b := by
  intro a
  induction a with
  | nil =>
    intro b
    show cmpZeros (b ++ [0]) = cmpZeros b
    exact cmpZeros_append_zero b
  | cons x xs ih =>
    intro b
    cases b with
    | nil => simp only [List.nil_append, cmpPadded]
    | cons y ys => simp only [List.cons_append, cmpPadded, List.append_eq]; rw [ih ys]

/-- Appending one `0` to the first list does not change the loop's result. -/
theorem cmpPadded_append_zero_left (a b : List Int) :
    cmpPadded (a ++ [0]) b = cmpPadded a b := by
  rw [cmpPadded_neg (a ++ [0]) b, cmpPadded_append_zero_right b a, ← cmpPadded_neg a b]

/-- Appending any number of `0`s to the second list changes nothing. -/
theorem cmpPadded_append_replicate_right : ∀ (k : Nat) (a b : List Int),
    cmpPadded a (b ++ List.replicate k 0) = cmpPadded a b := by
  intro k
  induction k with
  | zero => simp
  | succ n ih =>
    intro a b
    rw [List.replicate_succ', ← List.append_assoc, cmpPadded_append_zero_right, ih]

/-- Appending any number of `0`s to the first list changes nothing. -/
theorem cmpPadded_append_replicate_left : ∀ (k : Nat) (a b : List Int),
    cmpPadded (a ++ List.replicate k 0) b = cmpPadded a b := by
  intro k a b
  rw [cmpPadded_neg (a ++ List.replicate k 0) b, cmpPadded_append_replicate_right k b a,
    ← cmpPadded_neg a b]

/-- A digit character is not whitespace. -/
theorem isPySpace_false_of_digit (c : Char) (h : isDigitChar c = true) : isPySpace c = false := by
  simp only [isDigitChar, decide_eq_true_eq] at h
  simp only [isPySpace, decide_eq_false_iff_not]
  omega

/-- `dropWhile isPySpace` is the identity on all-digit lists. -/
theorem dropWhile_isPySpace_of_digits (l : List Char) (h : l.all isDigitChar = true) :
    l.dropWhile isPySpace = l := by
  cases l with
  | nil => rfl
  | cons c rest =>
    rw [List.all_cons, Bool.and_eq_true] at h
    simp [List.dropWhile_cons, isPySpace_false_of_digit c h.1]

/-- Stripping whitespace is the identity on all-digit lists. -/
theorem pyStripChars_of_digits (l : List Char) (h : l.all isDigitChar = true) :
    pyStripChars l = l := by
  have hrev : l.reverse.all isDigitChar = true := by
    rw [List.all_eq_true] at h ⊢
    intro x hx
    exact h x (List.mem_reverse.mp hx)
  unfold pyStripChars
  rw [dropWhile_isPySpace_of_digits l h, dropWhile_isPySpace_of_digits l.reverse hrev,
    List.reverse_reverse]

/-- The digit-run scanner succeeds on all-digit lists. -/
theorem pyDigitsCore_of_digits : ∀ (l : List Char) (acc : Nat),
    l.all isDigitChar = true → ∃ n, pyDigitsCore acc l = some n := by
  intro l
  induction l with
  | nil => exact fun acc _ => ⟨acc, rfl⟩
  | cons c rest ih =>
    intro acc h
    rw [List.all_cons, Bool.and_eq_true] at h
    have hne : ¬(c = '_') := by
      intro hq
      rw [hq] at h
      exact absurd h.1 (by decide)
    rw [pyDigitsCore.eq_def]
    simp only [if_neg hne, if_pos h.1]
    exact ih _ h.2

/-- `int` succeeds and is nonnegative on a nonempty all-digit string. -/
theorem pyInt_of_component (t : String) (h : validComponent t = true) :
    ∃ n : Nat, pyInt t = some ((n : Int)) := by
  rw [validComponent, Bool.and_eq_true] at h
  obtain ⟨hne, hall⟩ := h
  have hstrip := pyStripChars_of_digits t.data hall
  unfold pyInt
  rw [hstrip]
  rcases hd : t.data with _ | ⟨c, rest⟩
  · rw [hd] at hne; exact absurd hne (by decide)
  · rw [hd] at hall
    rw [List.all_cons, Bool.and_eq_true] at hall
    have hplus : ¬(c = '+') := by
      intro hq; rw [hq] at hall; exact absurd hall.1 (by decide)
    have hminus : ¬(c = '-') := by
      intro hq; rw [hq] at hall; exact absurd hall.1 (by decide)
    simp only [pyIntOfChars, if_neg hplus, if_neg hminus, pyDigits, if_pos hall.1]
    obtain ⟨n, hn⟩ := pyDigitsCore_of_digits rest (c.toNat - 48) hall.2
    exact ⟨n, by rw [hn]; rfl⟩

/-- `list(map(int, ...))` succeeds when every part converts. -/
theorem mapPyInt_ok_of_some (ts : List String)
    (h : ts.all (fun t => (pyInt t).isSome) = true) : ∃ L, mapPyInt ts = .ok L := by
  induction ts with
  | nil => exact ⟨[], rfl⟩
  | cons s rest ih =>
    rw [List.all_cons, Bool.and_eq_true] at h
    obtain ⟨n, hn⟩ := Option.isSome_iff_exists.mp h.1
    obtain ⟨L, hL⟩ := ih h.2
    exact ⟨n :: L, by simp only [mapPyInt, hn, hL]⟩

/-- `list(map(int, ...))` raises `ValueError` when some part does not convert. -/
theorem mapPyInt_error_of_bad (ts : List String)
    (h : ts.any (fun t => (pyInt t).isNone) = true) : mapPyInt ts = .error .valueError := by
  induction ts with
  | nil => exact absurd h (by decide)
  | cons s rest ih =>
    rw [List.any_cons, Bool.or_eq_true] at h
    rcases h with h | h
    · have : pyInt s = none := Option.isNone_iff_eq_none.mp h
      simp only [mapPyInt, this]
    · rcases hn : pyInt s with _ | n
      · simp only [mapPyInt, hn]
      · simp only [mapPyInt, hn, ih h]

/-- Every component of a valid version converts with `int`. -/
theorem all_isSome_of_valid (s : String) (h : ValidVersion s = true) :
    (pySplitDot s).all (fun t => (pyInt t).isSome) = true := by
  rw [ValidVersion, List.all_eq_true] at h
  rw [List.all_eq_true]
  intro t ht
  obtain ⟨n, hn⟩ := pyInt_of_component t (h t ht)
  simp [hn]

/-- On parsed inputs, `compare_versions` returns the loop's verdict; the
string-equality short cut agrees with it because the loop is reflexive. -/
theorem compare_versions_ok_of_parsed (a b : String) (L1 L2 : List Int)
    (h1 : mapPyInt (pySplitDot a) = .ok L1) (h2 : mapPyInt (pySplitDot b) = .ok L2) :
    compare_versions (some a) (some b) = .ok (cmpPadded L1 L2) := by
  by_cases hab : a = b
  · subst hab
    have hL : L1 = L2 := by
      rw [h1] at h2
      exact (PyResult.ok.injEq _ _).mp h2
    subst hL
    simp [compare_versions, cmpPadded_refl]
  · have hne : ¬((some a : Option String) = some b) := by
      intro hq
      exact hab (Option.some.inj hq)
    simp only [compare_versions, if_neg hne, h1, h2]

/-- Paths no extracted member writes are unchanged by `extractall`. -/
theorem extract_all_untouched : ∀ (members : List (String × String))
    (fs : String → Option String) (p : String),
    (∀ m ∈ members, m.1 ≠ p) → extract_all fs members p = fs p := by
  intro members
  induction members with
  | nil => intro fs p _; rfl
  | cons m rest ih =>
    intro fs p h
    have h1 : m.1 ≠ p := h m (List.mem_cons_self m rest)
    have h2 : ∀ m2 ∈ rest, m2.1 ≠ p := fun m2 hm2 => h m2 (List.mem_cons_of_mem m hm2)
    show extract_all (fsWrite fs m.1 m.2) rest p = fs p
    rw [ih (fsWrite fs m.1 m.2) p h2]
    unfold fsWrite
    rw [if_neg (fun hq => h1 hq.symm)]

/-- C1: the claim says that with the override unset and the local version
absent, no comparison is attempted and the decision is no-fetch.  The code
instead attempts the comparison: at the script's only call site (line 261)
the portable local version is never populated, so `compare_versions(None,
remote)` evaluates `None.split(".")` and raises `AttributeError`.  This
theorem evaluates the decision at the claim's own example input
`decide(local=None, remote="1.0", override unset)`. -/
theorem claim1_absent_local_version_raises :
    compare_prompt_update none (some "1.0") false "" = .error .attributeError ∧
    compare_versions none (some "1.0") = .error .attributeError := by
  constructor <;> rfl

/-- C4: version comparison pads the shorter list with zeros to the longer
length (appending padding zeros to either argument never changes the loop's
verdict), and the spec's three concrete comparisons hold, including the
numeric (not lexical) `0.9 < 0.10`. -/
theorem claim4_padding_and_numeric_examples :
    (∀ l1 l2 : List Int,
      cmpPadded l1 l2 =
        cmpPadded (l1 ++ List.replicate (max l1.length l2.length - l1.length) 0)
          (l2 ++ List.replicate (max l1.length l2.length - l2.length) 0)) ∧
    compare_versions (some "1.2") (some "1.2.0") = .ok 0 ∧
    compare_versions (some "2.0.0") (some "1.9.9") = .ok 1 ∧
    compare_versions (some "0.9") (some "0.10") = .ok (-1) := by
  refine ⟨?_, by decide, by decide, by decide⟩
  intro l1 l2
  rw [cmpPadded_append_replicate_left, cmpPadded_append_replicate_right]

/-- C5: when the update override is explicitly `False`, every guard of the
update-check block (`... and install_update is None`) is false, so no version
lookup happens, `compare_prompt_update` is never invoked, no prompt is shown
and no download occurs, for every environment. -/
theorem claim5_override_false_skips_update (env : RunEnv) :
    update_check env (some false) = .ok ⟨none, none, none, none, false, false, false⟩ := by
  unfold update_check
  simp [truthyStrList]

/-- C9 counterexample: in the not-found scenario (neither entry point
resolves) the script's exit code is `0`, not non-zero as the claim states —
the launch block only prints and the script ends normally. -/
theorem claim9_notfound_exit_code_zero :
    (launch_block none none).2.2 = 0 := rfl

/-- C9 amended: when neither variant resolves, the script reports "Enfugue
not found." and launches no child process, but it exits with code `0`, not a
non-zero code. -/
theorem claim9_amended_notfound_reports_no_launch :
    launch_block none none = (.noLaunch, ["Enfugue not found."], 0) := rfl

/-- C10 counterexample: in a run with the `--update` override set (and both
variants present, a Python executable available), the update check
`compare_prompt_update` is NOT invoked at all — `checkInvoked` is `false` —
contradicting the claim's assertion that the check is invoked with both
versions absent and decides not to fetch.  (No prompt and no download occur,
but for a different reason than the claim gives.) -/
theorem claim10_update_flag_check_not_invoked :
    update_check ⟨some "enfugue", some "enfugue-server", some "python3", [], [], "", ""⟩
      (some true) = .ok ⟨none, none, none, none, false, false, false⟩ := by decide

/-- C10 amended: a run with `--update` sets the override to `True` (that
branch of lines 204-207 does not hit the missing `args.no_update`
attribute), and then the whole update-check block — the version lookups AND
the `compare_prompt_update` call itself — is skipped, because every part of
it is guarded by `install_update is None`.  Hence no prompt is shown and no
portable archive is downloaded, with the update check never invoked. -/
theorem claim10_amended_update_flag_skips_block :
    install_update_of_flags true = .ok (some true) ∧
    ∀ env : RunEnv,
      update_check env (some true) = .ok ⟨none, none, none, none, false, false, false⟩ := by
  refine ⟨rfl, ?_⟩
  intro env
  unfold update_check
  simp [truthyStrList]

/-- C2 counterexample: `download_portable` has no staging path — extraction
writes directly into the destination.  With a pre-existing destination file
`enfugue-server/run.sh` containing `"old"`, an extraction that fails after
the first of two members leaves that file overwritten with `"new"`: the
destination is NOT byte-for-byte unchanged. -/
theorem claim2_midfail_changes_destination :
    download_portable_midfail
      (fun q => if q = "enfugue-server/run.sh" then some "old" else none)
      "enfugue.tar.gz" "archive-bytes"
      [("enfugue-server/run.sh", "new"), ("enfugue-server/other", "x")] 1
      "enfugue-server/run.sh"
    ≠ (fun q => if q = "enfugue-server/run.sh" then some "old" else none)
        "enfugue-server/run.sh" := by decide

/-- C2 amended: extraction happens in place, so a mid-extraction failure
preserves only the paths that were not yet written: any path different from
the downloaded archive file and from the first `k` member paths is
unchanged (already-extracted members may overwrite pre-existing destination
files, as the counterexample shows).  On a successful run the temporary
archive file is removed at the end. -/
theorem claim2_amended_untouched_paths_frame (fs : String → Option String)
    (filename archive : String) (members : List (String × String)) (k : Nat) (p : String)
    (hfile : p ≠ filename) (hmem : ∀ m ∈ members.take k, m.1 ≠ p) :
    download_portable_midfail fs filename archive members k p = fs p ∧
    download_portable_run fs filename archive members filename = none := by
  constructor
  · unfold download_portable_midfail extract_upto
    rw [extract_all_untouched (members.take k) (fsWrite fs filename archive) p hmem]
    unfold fsWrite
    rw [if_neg hfile]
  · unfold download_portable_run fsRemove
    rw [if_pos rfl]

/-- C2 amended, witnessed at a concrete input: a path that no extracted
member touches keeps its old contents across the failed run. -/
theorem claim2_amended_frame_witness :
    download_portable_midfail
      (fun q => if q = "enfugue-server/run.sh" then some "old" else none)
      "enfugue.tar.gz" "archive-bytes"
      [("enfugue-server/run.sh", "new"), ("enfugue-server/other", "x")] 1
      "enfugue-server/config.yml"
    = (fun q => if q = "enfugue-server/run.sh" then some "old" else none)
        "enfugue-server/config.yml" ∧
    download_portable_run
      (fun q => if q = "enfugue-server/run.sh" then some "old" else none)
      "enfugue.tar.gz" "archive-bytes"
      [("enfugue-server/run.sh", "new"), ("enfugue-server/other", "x")]
      "enfugue.tar.gz" = none :=
  claim2_amended_untouched_paths_frame
    (fun q => if q = "enfugue-server/run.sh" then some "old" else none)
    "enfugue.tar.gz" "archive-bytes"
    [("enfugue-server/run.sh", "new"), ("enfugue-server/other", "x")] 1
    "enfugue-server/config.yml" (by decide) (by decide)

/-- C6 counterexample: with the override explicitly `True` but the remote
version not newer (`local="1.1"`, `remote="1.0"`), `compare_prompt_update`
falls through both branches and returns `None` (falsy): the decision is NOT
`shouldFetch = true` regardless of versions. -/
theorem claim6_force_update_not_regardless :
    compare_prompt_update (some "1.1") (some "1.0") true "x" = .ok (none, false) := by decide

/-- C6 amended: with the override explicitly `True`, no prompt is ever shown,
and the decision is fetch exactly when the comparison is strictly negative
(remote newer than local); otherwise the function returns `None`, i.e.
no-fetch. -/
theorem claim6_amended_force_update_only_when_newer (v1 v2 : Option String) (answer : String)
    (r : Int) (h : compare_versions v1 v2 = .ok r) :
    compare_prompt_update v1 v2 true answer =
      .ok (if r < 0 then (some true, false) else (none, false)) := by
  simp only [compare_prompt_update, h]
  by_cases hr : r < 0 <;> simp [hr]

/-- C6 amended, witnessed: `local="1.0"`, `remote="1.1"` with override `True`
fetches without prompting. -/
theorem claim6_amended_witness :
    compare_prompt_update (some "1.0") (some "1.1") true "" =
      .ok (if (-1 : Int) < 0 then (some true, false) else (none, false)) :=
  claim6_amended_force_update_only_when_newer (some "1.0") (some "1.1") "" (-1) (by decide)

/-- C7 counterexample: the comparator does not always fail on empty or
unparsable input.  Two identical empty strings short-circuit through the
`v1 == v2` test and return `0` without parsing, and a negative component
such as `"-1"` (not a sequence of non-negative integers) parses through
Python's `int` and is compared numerically. -/
theorem claim7_equal_or_signed_inputs_do_not_fail :
    compare_versions (some "") (some "") = .ok 0 ∧
    compare_versions (some "-1") (some "0") = .ok (-1) := by
  constructor <;> decide

/-- C7 amended: for two DISTINCT version strings, if either has a component
Python's `int` rejects, the comparison raises `ValueError` (the script has no
`MalformedVersion` error kind); identical strings return `0` without parsing,
and signed components are accepted rather than rejected. -/
theorem claim7_amended_distinct_malformed_raises (s1 s2 : String) (hne : s1 ≠ s2)
    (hbad : (pySplitDot s1).any (fun t => (pyInt t).isNone) = true ∨
      (pySplitDot s2).any (fun t => (pyInt t).isNone) = true) :
    compare_versions (some s1) (some s2) = .error .valueError := by
  have hne2 : ¬((some s1 : Option String) = some s2) := fun hq => hne (Option.some.inj hq)
  by_cases h1 : (pySplitDot s1).any (fun t => (pyInt t).isNone) = true
  · simp only [compare_versions, if_neg hne2, mapPyInt_error_of_bad _ h1]
  · have hall : (pySplitDot s1).all (fun t => (pyInt t).isSome) = true := by
      rw [List.all_eq_true]
      intro t ht
      rcases hs : pyInt t with _ | n
      · exact absurd (by rw [List.any_eq_true]; exact ⟨t, ht, by simp [hs]⟩) h1
      · simp
    obtain ⟨L, hL⟩ := mapPyInt_ok_of_some _ hall
    have h2 : (pySplitDot s2).any (fun t => (pyInt t).isNone) = true := by
      rcases hbad with hb | hb
      · exact absurd hb h1
      · exact hb
    simp only [compare_versions, if_neg hne2, hL, mapPyInt_error_of_bad _ h2]

/-- C7 amended, witnessed: comparing the unparsable `"x"` against `"1"`
raises `ValueError`. -/
theorem claim7_amended_witness :
    compare_versions (some "x") (some "1") = .error .valueError :=
  claim7_amended_distinct_malformed_raises "x" "1" (by decide) (Or.inl (by decide))

/-- C8 counterexample: the empty answer is not treated as "no" — lowercasing
keeps it empty and `answer[0]` raises `IndexError`, crashing the prompt
instead of declining the update. -/
theorem claim8_empty_answer_raises :
    compare_prompt_update (some "1.0") (some "1.1") false "" = .error .indexError := by decide

/-- C8 amended: when the prompt is reached (override unset at the call,
comparison strictly negative), a NONEMPTY answer is accepted as affirmative
exactly when its lowercased first character is `y`, `t` or `1` (everything
else is "no"), while the EMPTY answer raises `IndexError` rather than being
treated as "no". -/
theorem claim8_amended_answer_acceptance (v1 v2 : Option String) (answer : String) (r : Int)
    (h : compare_versions v1 v2 = .ok r) (hr : r < 0) :
    (answer = "" → compare_prompt_update v1 v2 false answer = .error .indexError) ∧
    (∀ c cs, (pyLower answer).data = c :: cs →
      compare_prompt_update v1 v2 false answer =
        .ok (some (c == 'y' || c == 't' || c == '1'), true)) := by
  constructor
  · intro ha
    subst ha
    simp [compare_prompt_update, h, hr, pyLower]
  · intro c cs hcs
    simp only [compare_prompt_update, h, if_pos hr, Bool.false_eq_true, if_false, hcs]

/-- C8 amended, witnessed: the answer `"YES"` is accepted (case-insensitive
`y`), triggering the fetch after the prompt. -/
theorem claim8_amended_answer_acceptance_witness :
    compare_prompt_update (some "1.0") (some "1.1") false "YES" = .ok (some true, true) := by
  have h := (claim8_amended_answer_acceptance (some "1.0") (some "1.1") "YES" (-1)
    (by decide) (by decide)).2 'y' ['e', 's'] (by decide)
  rw [h]
  decide

/-- C3: over valid dotted-integer version strings the comparator is
reflexive (`compare(a,a) == 0`), antisymmetric (`compare(a,b) ==
-compare(b,a)`), and its nonpositive cone is transitive (`compare(a,b) <= 0`
and `compare(b,c) <= 0` imply `compare(a,c) <= 0`, with the comparison on
`(a,c)` guaranteed to succeed). -/
theorem claim3_compare_order_properties (a b c : String)
    (ha : ValidVersion a = true) (hb : ValidVersion b = true) (hc : ValidVersion c = true) :
    compare_versions (some a) (some a) = .ok 0 ∧
    (∀ r_ab r_ba, compare_versions (some a) (some b) = .ok r_ab →
      compare_versions (some b) (some a) = .ok r_ba → r_ab = -r_ba) ∧
    (∀ r_ab r_bc, compare_versions (some a) (some b) = .ok r_ab → r_ab ≤ 0 →
      compare_versions (some b) (some c) = .ok r_bc → r_bc ≤ 0 →
      ∃ r_ac, compare_versions (some a) (some c) = .ok r_ac ∧ r_ac ≤ 0) := by
  obtain ⟨La, hLa⟩ := mapPyInt_ok_of_some _ (all_isSome_of_valid a ha)
  obtain ⟨Lb, hLb⟩ := mapPyInt_ok_of_some _ (all_isSome_of_valid b hb)
  obtain ⟨Lc, hLc⟩ := mapPyInt_ok_of_some _ (all_isSome_of_valid c hc)
  have hab := compare_versions_ok_of_parsed a b La Lb hLa hLb
  have hba := compare_versions_ok_of_parsed b a Lb La hLb hLa
  have hbc := compare_versions_ok_of_parsed b c Lb Lc hLb hLc
  have hac := compare_versions_ok_of_parsed a c La Lc hLa hLc
  have haa := compare_versions_ok_of_parsed a a La La hLa hLa
  refine ⟨?_, ?_, ?_⟩
  · rw [haa, cmpPadded_refl]
  · intro r_ab r_ba h1 h2
    rw [hab] at h1
    rw [hba] at h2
    have e1 : cmpPadded La Lb = r_ab := (PyResult.ok.injEq _ _).mp h1
    have e2 : cmpPadded Lb La = r_ba := (PyResult.ok.injEq _ _).mp h2
    rw [← e1, ← e2]
    exact cmpPadded_neg La Lb
  · intro r_ab r_bc h1 hle1 h2 hle2
    rw [hab] at h1
    rw [hbc] at h2
    have e1 : cmpPadded La Lb = r_ab := (PyResult.ok.injEq _ _).mp h1
    have e2 : cmpPadded Lb Lc = r_bc := (PyResult.ok.injEq _ _).mp h2
    refine ⟨cmpPadded La Lc, hac, ?_⟩
    exact cmpPadded_trans La Lb Lc (e1 ▸ hle1) (e2 ▸ hle2)

/-- C3, witnessed on the valid versions `"1.0.1"`, `"1.1"`, `"1.1.2"`:
reflexivity at `"1.0.1"`, antisymmetry of the pair (`-1` and `1`), and a
transitivity instance ending in a successful nonpositive comparison. -/
theorem claim3_compare_order_properties_witness :
    compare_versions (some "1.0.1") (some "1.0.1") = .ok 0 ∧
    (-1 : Int) = -(1 : Int) ∧
    ∃ r, compare_versions (some "1.0.1") (some "1.1.2") = .ok r ∧ r ≤ 0 := by
  obtain ⟨h1, h2, h3⟩ := claim3_compare_order_properties "1.0.1" "1.1" "1.1.2"
    (by decide) (by decide) (by decide)
  exact ⟨h1, h2 (-1) 1 (by decide) (by decide),
    h3 (-1) (-1) (by decide) (by decide) (by decide) (by decide)⟩
